import Mathlib

/-!
Verification development for the HisBet historical scraper
(PancakeSwap BNB/USD prediction-game history pipeline).

Shallow embedding of the JavaScript sources:
  modules/redisLock.js        (src/unnamed/part_002)
  modules/transactionManager.js (TransactionManager + HisBetScraper)
  modules/database.js
  modules/eventScraper.js
  modules/dataValidator.js

Conventions used throughout:
  * JavaScript numbers that only ever carry integers are modelled as
    `Int`/`Nat`; monetary values handled by the validator are modelled as
    exact rationals (this idealises IEEE-754 doubles; it agrees with the
    doubles at every concrete input evaluated below).  The one claim that
    is about the float/exact distinction (amount conversion) uses an
    explicit model of IEEE-754 binary64 rounding over `Rat`.
  * `null`/`undefined` fields are modelled with `Option`.
  * Error/warning message strings are transliterated to short English
    markers; no theorem depends on the text of a message, only on whether
    the corresponding list is empty.
-/

namespace HisBet

/-- Generic SQL value, as passed to the `pg` driver as a bound parameter. -/
inductive Val : Type where
  | i : Int → Val
  | s : String → Val
  | q : Rat → Val
  | null : Val
deriving DecidableEq, Repr

/-- A row handed to the persistence helpers: ordered field/value pairs,
mirroring a JavaScript object whose key order is insertion order. -/
abbrev Row : Type := List (String × Val)

/-! ## Redis lock service (modules/redisLock.js)

`acquireLock` performs `SET key "processing" NX EX ttl`; `releaseLock`
performs an unconditional `DEL key`.  Keys are `lock:pancake:epoch:{e}`,
which is injective in the epoch, so the state is modelled as an
association list from epoch to the stored lock value. -/

/-- State of the Redis lock service: one entry per currently held epoch
lock, mapping epoch to the opaque stored value. -/
structure RedisState : Type where
  locks : List (Int × String)
deriving DecidableEq, Repr

/-- Lock lookup, corresponding to the presence of the Redis key. -/
def RedisState.get (s : RedisState) (epoch : Int) : Option String :=
  (s.locks.find? (fun kv => kv.1 = epoch)).map (·.2)

/-- Model of `RedisLock.acquireLock`: atomic set-if-absent with TTL.
Returns whether the caller now owns the lock, and the new state.
(The TTL only matters for expiry, which is outside these claims.) -/
def acquireLock (s : RedisState) (epoch : Int) : Bool × RedisState :=
  match s.get epoch with
  | some _ => (false, s)
  | none => (true, ⟨(epoch, "processing") :: s.locks⟩)

/-- Model of `RedisLock.releaseLock`: unconditional `DEL` of the key,
regardless of which invocation stored it. -/
def releaseLock (s : RedisState) (epoch : Int) : RedisState :=
  ⟨s.locks.filter (fun kv => kv.1 ≠ epoch)⟩

/-- Outcome of one `HisBetScraper.processEpoch` invocation. -/
inductive ProcessOutcome : Type where
  | skippedDone : ProcessOutcome
  | skippedLocked : ProcessOutcome
  | processed : ProcessOutcome
  | failed : ProcessOutcome
deriving DecidableEq, Repr

/-- Model of the control flow of `HisBetScraper.processEpoch(epoch)`
(modules/transactionManager.js, main class):

  1. `checkFinEpoch` — if the completion marker exists, `return` (skip);
  2. `acquireLock` — if it returns `false`, `return` (skip);
  3. run `handleEpochProcessing` (success or throw, abstracted by
     `procOk`);
  4. the `finally` block calls `releaseLock(epoch)` on EVERY exit path,
     including both skip paths above.

`finDone` abstracts the `db.checkFinEpoch(epoch)` result and `procOk`
the success of the epoch processing body. -/
def processEpoch (finDone : Bool) (procOk : Bool) (epoch : Int)
    (s : RedisState) : ProcessOutcome × RedisState :=
  if finDone then
    (ProcessOutcome.skippedDone, releaseLock s epoch)
  else
    match acquireLock s epoch with
    | (false, s₁) => (ProcessOutcome.skippedLocked, releaseLock s₁ epoch)
    | (true, s₁) =>
        ((if procOk then ProcessOutcome.processed else ProcessOutcome.failed),
          releaseLock s₁ epoch)

/-! ## Transaction executor (modules/transactionManager.js, database.js)

`TransactionManager.executeTransaction(cb)` takes a connection, runs
`BEGIN`, wraps the client, runs `cb`, then `COMMIT` + release on clean
return or `ROLLBACK` + release when `cb` throws
(`Database.commitTransaction`/`rollbackTransaction` both end with
`client.release()`). -/

/-- The seven allow-listed tables, as concrete row lists. -/
structure DB : Type where
  round : List Row
  hisBet : List Row
  claim : List Row
  multiClaim : List Row
  realBet : List Row
  finEpoch : List Row
  errEpoch : List Row
deriving DecidableEq

/-- The empty store. -/
def DB.empty : DB := ⟨[], [], [], [], [], [], []⟩

/-- Result of one `executeTransaction` call: the resulting store (the
committed state on success, the untouched snapshot after rollback), the
propagated outcome, and whether the pooled connection was released. -/
structure TxResult : Type where
  final : DB
  outcome : Except String Unit
  released : Bool

/-- Model of `TransactionManager.executeTransaction`: commit on clean
return of the callback, roll back (restoring the snapshot) when the
callback throws, release the connection on both paths. -/
def executeTransaction (cb : DB → Except String DB) (db : DB) : TxResult :=
  match cb db with
  | Except.ok db₁ => ⟨db₁, Except.ok (), true⟩
  | Except.error msg => ⟨db, Except.error msg, true⟩

/-- Value stored in a row field named `epoch`. -/
def rowEpoch (r : Row) : Option Val :=
  (r.find? (fun kv => kv.1 = "epoch")).map (·.2)

/-- Model of `trx.delete('realBet', \x7b epoch \x7d)` as a state change:
removes every `realBet` row whose `epoch` column equals the given epoch. -/
def deleteRealBet (epoch : Int) (db : DB) : DB :=
  { db with realBet := db.realBet.filter (fun r => rowEpoch r ≠ some (Val.i epoch)) }

/-- Model of the commit callback of `HisBetScraper.handleEpochProcessing`
(step 7, 執行事務性寫入): delete the epoch's `realBet` staging rows,
insert the round row, batch-insert bets and claims, batch-insert the
derived multiClaim rows when non-empty, and insert the `finEpoch`
completion marker — all on the single transactional handle. -/
def epochCommitCb (epoch : Int) (roundData : Row) (bets claims multi : List Row)
    (db : DB) : Except String DB :=
  let db₁ := deleteRealBet epoch db
  let db₂ := { db₁ with round := db₁.round ++ [roundData] }
  let db₃ := { db₂ with hisBet := db₂.hisBet ++ bets }
  let db₄ := { db₃ with claim := db₃.claim ++ claims }
  let db₅ :=
    if multi.isEmpty then db₄
    else { db₄ with multiClaim := db₄.multiClaim ++ multi }
  Except.ok { db₅ with finEpoch := db₅.finEpoch ++ [[("epoch", Val.i epoch)]] }

/-! ## SQL generation of the transactional handle
(modules/transactionManager.js `createTransactionClient`,
`buildWhereClause`, `buildSetClause`; modules/database.js
`sanitizeTableName`)

The texts below reproduce the template literals of the source with
whitespace normalised to single spaces.  The load-bearing content is the
placeholder text: `insert` writes `"$" + (index+1)` (source:
`$\x7b\x7d` with a literal leading dollar), while `batchInsert`,
`buildWhereClause` and `buildSetClause` write the bare parameter index
with no dollar sign. -/

/-- A generated query: SQL text plus the bound parameter list that is
passed to `client.query(text, params)`. -/
structure SqlQuery : Type where
  text : String
  params : List Val
deriving DecidableEq, Repr

/-- The fixed table allow-list of `Database.sanitizeTableName`. -/
def allowedTables : List String :=
  ["round", "hisBet", "claim", "multiClaim", "realBet", "finEpoch", "errEpoch"]

/-- Model of `Database.sanitizeTableName`: return the name unchanged when
allow-listed, throw otherwise. -/
def sanitizeTableName (tableName : String) : Except String String :=
  if tableName ∈ allowedTables then Except.ok tableName
  else Except.error ("table not allowed: " ++ tableName)

/-- Column identifiers joined with double quotes, as in
`columns.map(c => quoted).join(", ")`. -/
def quoteCols (cols : List String) : String :=
  String.intercalate ", " (cols.map (fun c => "\"" ++ c ++ "\""))

/-- Placeholder list of `trx.insert`: `$1, $2, …` (the source template
emits a literal dollar before the interpolated index). -/
def insertPlaceholders (n : Nat) : String :=
  String.intercalate ", " ((List.range n).map (fun i => "$" ++ toString (i + 1)))

/-- Model of `trx.insert(data, tableName)`. -/
def trxInsert (data : Row) (tableName : String) : Except String SqlQuery := do
  let table ← sanitizeTableName tableName
  let columns := data.map (·.1)
  let values := data.map (·.2)
  Except.ok
    { text := "INSERT INTO " ++ table ++ " (" ++ quoteCols columns ++ ") VALUES ("
        ++ insertPlaceholders columns.length ++ ")",
      params := values }

/-- Placeholder tuple of `trx.batchInsert` for row `rowIndex` of width
`n`: the source pushes the bare interpolated `paramIndex` with NO dollar
sign (`rowIndex * columns.length + colIndex + 1`). -/
def batchRowPlaceholders (n rowIndex : Nat) : String :=
  "(" ++ String.intercalate ", "
      ((List.range n).map (fun colIndex => toString (rowIndex * n + colIndex + 1)))
    ++ ")"

/-- Value list of `trx.batchInsert`: for each row the values of the
first row's columns, in column order. -/
def batchParams (columns : List String) (rows : List Row) : List Val :=
  rows.flatMap (fun r =>
    columns.map (fun c => ((r.find? (fun kv => kv.1 = c)).map (·.2)).getD Val.null))

/-- Model of `trx.batchInsert(dataArray, tableName)`: `none` models the
early `Promise.resolve(\x7b rowCount: 0 \x7d)` on an empty array. -/
def trxBatchInsert (dataArray : List Row) (tableName : String) :
    Except String (Option SqlQuery) := do
  if dataArray.isEmpty then
    Except.ok none
  else
    let table ← sanitizeTableName tableName
    let columns := (dataArray.headD []).map (·.1)
    let rowPlaceholders := String.intercalate ", "
      ((List.range dataArray.length).map (fun rowIndex =>
        batchRowPlaceholders columns.length rowIndex))
    Except.ok (some
      { text := "INSERT INTO " ++ table ++ " (" ++ quoteCols columns ++ ") VALUES "
          ++ rowPlaceholders,
        params := batchParams columns dataArray })

/-- One rendered conjunct of `buildWhereClause` together with its bound
parameters; the running parameter index is threaded explicitly. -/
def whereParts (conditions : Row) (offset : Nat) : List String × List Val :=
  match conditions with
  | [] => ([], [])
  | (key, value) :: rest =>
      let qkey := "\"" ++ key ++ "\""
      let (part, vals, used) :=
        match value with
        | Val.null => (qkey ++ " IS NULL", ([] : List Val), 0)
        | v => (qkey ++ " = " ++ toString (offset + 1), [v], 1)
      let (parts, params) := whereParts rest (offset + used)
      (part :: parts, vals ++ params)

/-- Model of `TransactionManager.buildWhereClause` (scalar and null
conditions; the `Array.isArray` IN-branch is unused by the pipeline).
The equality conjunct renders the bare parameter index with NO dollar
sign (source pushes the interpolated `paramIndex` directly). -/
def buildWhereClause (conditions : Row) (offset : Nat := 0) : String × List Val :=
  match whereParts conditions offset with
  | ([], _) => ("", [])
  | (parts, params) => ("WHERE " ++ String.intercalate " AND " parts, params)

/-- Model of `TransactionManager.buildSetClause`: each assignment renders
the bare 1-based index with NO dollar sign. -/
def buildSetClause (data : Row) : String × List Val :=
  let keys := data.map (·.1)
  let sql := String.intercalate ", "
    (keys.enum.map (fun ki => "\"" ++ ki.2 ++ "\" = " ++ toString (ki.1 + 1)))
  (sql, data.map (·.2))

/-- Model of `trx.delete(tableName, conditions)`. -/
def trxDelete (tableName : String) (conditions : Row) : Except String SqlQuery := do
  let table ← sanitizeTableName tableName
  let wc := buildWhereClause conditions
  Except.ok { text := "DELETE FROM " ++ table ++ " " ++ wc.1, params := wc.2 }

/-- Model of `trx.update(tableName, data, conditions)`: WHERE indices are
offset by the SET parameter count. -/
def trxUpdate (tableName : String) (data : Row) (conditions : Row) :
    Except String SqlQuery := do
  let table ← sanitizeTableName tableName
  let sc := buildSetClause data
  let wc := buildWhereClause conditions sc.2.length
  Except.ok
    { text := "UPDATE " ++ table ++ " SET " ++ sc.1 ++ " " ++ wc.1,
      params := sc.2 ++ wc.2 }

/-- Model of `trx.select(tableName, conditions, columns)`. -/
def trxSelect (tableName : String) (conditions : Row) (columns : List String) :
    Except String SqlQuery := do
  let table ← sanitizeTableName tableName
  let wc := buildWhereClause conditions
  let columnsStr := String.intercalate ", "
    (columns.map (fun c => if c = "*" then "*" else "\"" ++ c ++ "\""))
  Except.ok
    { text := "SELECT " ++ columnsStr ++ " FROM " ++ table ++ " " ++ wc.1,
      params := wc.2 }

/-! ## Event harvester (modules/eventScraper.js)

The chain is modelled as a list of raw log records; `queryFilter` of a
contract filter returns the records of the matching event signature
inside the requested block range. -/

/-- The six contract event signatures the scraper defines filters for. -/
inductive EvName : Type where
  | startRound : EvName
  | lockRound : EvName
  | endRound : EvName
  | betBull : EvName
  | betBear : EvName
  | claim : EvName
deriving DecidableEq, Repr

/-- A raw log record as returned by `contract.queryFilter`, with the
decoded `args` flattened (fields that a given signature lacks are simply
unused). -/
structure RawEvent : Type where
  name : EvName
  blockNumber : Nat
  blockHash : String
  transactionHash : String
  transactionIndex : Nat
  logIndex : Nat
  address : String
  sender : String
  epoch : Int
  amountWei : Nat
  priceWei : Nat
deriving DecidableEq, Repr

/-- Model of `contract.queryFilter(filter, from, to)`: the chain's
records of the filtered signature with block number inside the range. -/
def queryFilter (chain : List RawEvent) (n : EvName) (fromBlock toBlock : Nat) :
    List RawEvent :=
  chain.filter (fun e => e.name = n ∧ fromBlock ≤ e.blockNumber ∧ e.blockNumber ≤ toBlock)

/-- Slice loop of `fetchEventsByFilter`: starting at `cursor`, query
`[cursor, min to (cursor+sliceSize-1)]`, then advance past the slice end;
`fuel` bounds the recursion (any fuel above `toBlock + 1 - cursor`
slices is exact). -/
def sliceLoop (chain : List RawEvent) (n : EvName) (toBlock sliceSize : Nat) :
    Nat → Nat → List RawEvent
  | 0, _ => []
  | fuel + 1, cursor =>
      if cursor ≤ toBlock then
        let endBlock := min toBlock (cursor + sliceSize - 1)
        queryFilter chain n cursor endBlock ++
          sliceLoop chain n toBlock sliceSize fuel (endBlock + 1)
      else []

/-- A parsed event as produced by `parseEvents`: the base fields plus the
per-signature decoded payload.  Amounts and prices are the exact values
of `ethers.formatEther` (division by 10^18); the base `timestamp` is the
looked-up block timestamp. -/
structure ParsedEvent : Type where
  eventType : EvName
  blockNumber : Nat
  blockHash : String
  transactionHash : String
  transactionIndex : Nat
  logIndex : Nat
  address : String
  timestamp : Int
  sender : String
  epoch : Int
  amount : Rat
  price : Rat
  position : Option String
deriving DecidableEq, Repr

/-- Parse of a single raw event (the `switch (eventType)` body of
`parseEvents`), given the timestamp resolved for its block. -/
def parseOne (tsOf : Nat → Int) (eventType : EvName) (e : RawEvent) : ParsedEvent :=
  let base : ParsedEvent :=
    { eventType := eventType
      blockNumber := e.blockNumber
      blockHash := e.blockHash
      transactionHash := e.transactionHash
      transactionIndex := e.transactionIndex
      logIndex := e.logIndex
      address := e.address
      timestamp := tsOf e.blockNumber
      sender := ""
      epoch := 0
      amount := 0
      price := 0
      position := none }
  match eventType with
  | EvName.startRound => { base with epoch := e.epoch }
  | EvName.lockRound => { base with epoch := e.epoch, price := (e.priceWei : Rat) / 10 ^ 18 }
  | EvName.endRound => { base with epoch := e.epoch, price := (e.priceWei : Rat) / 10 ^ 18 }
  | EvName.betBull =>
      { base with
        sender := e.sender
        epoch := e.epoch
        amount := (e.amountWei : Rat) / 10 ^ 18
        position := some "Bull" }
  | EvName.betBear =>
      { base with
        sender := e.sender
        epoch := e.epoch
        amount := (e.amountWei : Rat) / 10 ^ 18
        position := some "Bear" }
  | EvName.claim =>
      { base with
        sender := e.sender
        epoch := e.epoch
        amount := (e.amountWei : Rat) / 10 ^ 18 }

/-- Model of `parseEvents(rawEvents, eventType)` with the block
timestamps already resolved into `tsOf` (the composition of the batch
lookup result with the `|| now` fallback). -/
def parseEvents (tsOf : Nat → Int) (rawEvents : List RawEvent) (eventType : EvName) :
    List ParsedEvent :=
  rawEvents.map (parseOne tsOf eventType)

/-- Model of `fetchEventsByFilter(eventName, filter, from, to)`: slice the
range into `sliceSize` segments (default `SLICE_SIZE` 20000), aggregate,
then parse. -/
def fetchEventsByFilter (chain : List RawEvent) (tsOf : Nat → Int) (n : EvName)
    (fromBlock toBlock : Nat) (sliceSize : Nat := 20000) : List ParsedEvent :=
  parseEvents tsOf (sliceLoop chain n toBlock sliceSize (toBlock + 1) fromBlock) n

/-- The grouped event streams returned by the harvester. -/
structure EpochEvents : Type where
  startRoundEvents : List ParsedEvent
  lockRoundEvents : List ParsedEvent
  endRoundEvents : List ParsedEvent
  betBullEvents : List ParsedEvent
  betBearEvents : List ParsedEvent
  claimEvents : List ParsedEvent
deriving DecidableEq, Repr

/-- Model of `fetchEventsInBatch(fromBlock, toBlock)`: the source
queries ONLY the `BetBull`, `BetBear` and `Claim` filters in parallel
(comment in `fetchEventsInRange`: 我們只關注下注與領獎) and returns
empty literal arrays for the three round streams. -/
def fetchEventsInBatch (chain : List RawEvent) (tsOf : Nat → Int)
    (fromBlock toBlock : Nat) : EpochEvents :=
  { startRoundEvents := []
    lockRoundEvents := []
    endRoundEvents := []
    betBullEvents := fetchEventsByFilter chain tsOf EvName.betBull fromBlock toBlock
    betBearEvents := fetchEventsByFilter chain tsOf EvName.betBear fromBlock toBlock
    claimEvents := fetchEventsByFilter chain tsOf EvName.claim fromBlock toBlock }

/-! ## Block timestamp batch lookup and cache
(modules/eventScraper.js `getBlockTimestampsBatch`)

The cache entries written by the function are
`\x7b timestamp, cachedAt: now \x7d`, but the freshness test on read is
`now - cached.timestamp < timestampCacheExpiry`, i.e. it compares the
wall-clock in milliseconds against the stored CHAIN timestamp (in
seconds), not against `cachedAt`. -/

/-- A block-timestamp cache entry as written by `getBlockTimestampsBatch`:
`timestamp` is the chain timestamp that was fetched (or substituted) and
`cachedAt` the wall-clock at caching time. -/
structure TsCacheEntry : Type where
  timestamp : Int
  cachedAt : Int
deriving DecidableEq, Repr

/-- The block-timestamp cache, keyed by block number. -/
abbrev TsCache : Type := List (Nat × TsCacheEntry)

/-- Cache lookup (`this.blockTimestampCache.get(blockNum)`). -/
def tsCacheGet (cache : TsCache) (blockNum : Nat) : Option TsCacheEntry :=
  (cache.find? (fun kv => kv.1 = blockNum)).map (·.2)

/-- Cache store (`this.blockTimestampCache.set(blockNum, entry)`). -/
def tsCacheSet (cache : TsCache) (blockNum : Nat) (entry : TsCacheEntry) : TsCache :=
  (blockNum, entry) :: cache.filter (fun kv => kv.1 ≠ blockNum)

/-- The default `timestampCacheExpiry`: 60 minutes in milliseconds. -/
def timestampCacheExpiry : Int := 60 * 60 * 1000

/-- Freshness test applied on cache read: the source compares
`now - cached.timestamp` (NOT `cached.cachedAt`) against the expiry. -/
def tsCacheFresh (now : Int) (entry : TsCacheEntry) : Bool :=
  now - entry.timestamp < timestampCacheExpiry

/-- Result of one `getBlockTimestampsBatch` call: the block→timestamp
map it returns, the updated cache, and the list of block numbers it
issued `provider.getBlock` requests for (the uncached ones, one request
each — the `batchSize` chunking only groups the promises). -/
structure TsBatchResult : Type where
  result : List (Nat × Int)
  cache : TsCache
  rpcBlocks : List Nat
deriving DecidableEq, Repr

/-- Cache-hit phase of `getBlockTimestampsBatch`: a block with a fresh
entry contributes its cached timestamp to the result map. -/
def tsHitFn (cache : TsCache) (now : Int) (b : Nat) : Option (Nat × Int) :=
  match tsCacheGet cache b with
  | some entry => if tsCacheFresh now entry then some (b, entry.timestamp) else none
  | none => none

/-- Membership test of the `uncachedBlocks` list: no entry, or an entry
the freshness test rejects. -/
def tsIsUncached (cache : TsCache) (now : Int) (b : Nat) : Bool :=
  match tsCacheGet cache b with
  | some entry => ¬ tsCacheFresh now entry
  | none => true

/-- Fetch phase for one uncached block: `provider.getBlock`, with the
wall clock in seconds (`Math.floor(Date.now() / 1000)`) substituted on
failure. -/
def tsFetchFn (getBlock : Nat → Option Int) (now : Int) (b : Nat) : Nat × Int :=
  (b, match getBlock b with
      | some ts => ts
      | none => now / 1000)

/-- Model of `getBlockTimestampsBatch(blockNumbers)`.  `getBlock b = none`
models a failed `provider.getBlock`; every fetched (or substituted)
value is written back to the cache as `\x7b timestamp, cachedAt: now \x7d`. -/
def getBlockTimestampsBatch (getBlock : Nat → Option Int) (now : Int)
    (cache : TsCache) (blockNumbers : List Nat) : TsBatchResult :=
  let hits := blockNumbers.filterMap (tsHitFn cache now)
  let uncachedBlocks := blockNumbers.filter (tsIsUncached cache now)
  let fetched := uncachedBlocks.map (tsFetchFn getBlock now)
  { result := hits ++ fetched
    cache := fetched.foldl (fun c bt => tsCacheSet c bt.1 ⟨bt.2, now⟩) cache
    rpcBlocks := uncachedBlocks }

/-- Lookup in the returned map (`blockTimestamps.get(blockNumber)`). -/
def tsBatchLookup (r : TsBatchResult) (b : Nat) : Option Int :=
  (r.result.find? (fun kv => kv.1 = b)).map (·.2)

/-- The deduplicated block-number list `parseEvents` builds before the
batch lookup (`[...new Set(rawEvents.map(e => e.blockNumber))]`). -/
def parseEventsBlockNumbers (rawEvents : List RawEvent) : List Nat :=
  (rawEvents.map (·.blockNumber)).dedup

/-! ## Block locator (modules/eventScraper.js `findBlockForTime`)

Lightweight "initial guess + nudge" locator: a seed guess, at most 3
stride probes of 100 blocks, at most 2 binary-search iterations over
`[block-100, block+100]`, then a bounded one-block boundary walk.  The
chain is modelled by its latest height and a total timestamp function
(every `provider.getBlock` succeeds); the block-range cache is empty, so
the seed is the no-anchor branch `latest - 86400·(110/300) = latest -
31680` clamped to `[0, latest]`. -/

/-- Stride-probe phase (`while (attempts < 3)`): state is the pair
`(block, lastTime)`; each recursive call is one loop iteration, a break
returns the state unchanged. -/
def probeLoop (ts : Nat → Nat) (latest targetTime : Nat) (isGte : Bool) :
    Nat → Nat × Nat → Nat × Nat
  | 0, st => st
  | fuel + 1, (block, lastTime) =>
      if isGte then
        if targetTime ≤ lastTime then
          let prev := block - 100
          let t := ts prev
          if targetTime ≤ t then probeLoop ts latest targetTime isGte fuel (prev, t)
          else (block, lastTime)
        else
          let next := min latest (block + 100)
          probeLoop ts latest targetTime isGte fuel (next, ts next)
      else
        if lastTime < targetTime then
          let next := min latest (block + 100)
          let t := ts next
          if t < targetTime then probeLoop ts latest targetTime isGte fuel (next, t)
          else (block, lastTime)
        else
          let prev := block - 100
          probeLoop ts latest targetTime isGte fuel (prev, ts prev)

/-- State of the short binary-search phase (`left`/`right` as signed
integers because `right` may reach `mid - 1 = -1`). -/
structure BinState : Type where
  left : Int
  right : Int
  block : Nat
  lastTime : Nat
deriving DecidableEq, Repr

/-- Binary phase (`while (iterations < 2 && left <= right)`). -/
def binLoop (ts : Nat → Nat) (targetTime : Nat) (isGte : Bool) :
    Nat → BinState → BinState
  | 0, st => st
  | fuel + 1, st =>
      if st.left ≤ st.right then
        let mid := (st.left + st.right) / 2
        let t := ts mid.toNat
        if isGte then
          if targetTime ≤ t then
            binLoop ts targetTime isGte fuel
              { st with
                right := mid - 1
                block := mid.toNat
                lastTime := t }
          else binLoop ts targetTime isGte fuel { st with left := mid + 1 }
        else
          if t < targetTime then
            binLoop ts targetTime isGte fuel
              { st with
                left := mid + 1
                block := mid.toNat
                lastTime := t }
          else binLoop ts targetTime isGte fuel { st with right := mid - 1 }
      else st

/-- Boundary walk of the `gte` mode (`while (block > 0)` walking one
block left; breaks when the predecessor misses the target or when the
updated block is a multiple of the step).  `fuel ≥ block` makes the
recursion exact. -/
def walkGte (ts : Nat → Nat) (targetTime : Nat) : Nat → Nat → Nat
  | 0, block => block
  | fuel + 1, block =>
      if 0 < block then
        let prev := block - 1
        let t := ts prev
        if targetTime ≤ t then
          if prev % 100 = 0 then prev else walkGte ts targetTime fuel prev
        else block
      else block

/-- Boundary walk of the `lt` mode (`while (block < latest)` walking one
block right; breaks when the successor reaches the target or drifts more
than one step past the original guess). -/
def walkLt (ts : Nat → Nat) (latest targetTime guess : Nat) : Nat → Nat → Nat
  | 0, block => block
  | fuel + 1, block =>
      if block < latest then
        let next := block + 1
        let t := ts next
        if t < targetTime then
          if 100 < (next : Int) - (guess : Int) then next
          else walkLt ts latest targetTime guess fuel next
        else block
      else block

/-- Model of `findBlockForTime(targetTime, mode)` with an empty
block-range cache: seed at `latest - 31680` (clamped into `[0, latest]`
by truncated subtraction), probe, binary-tighten, then boundary-walk. -/
def findBlockForTime (ts : Nat → Nat) (latest targetTime : Nat) (isGte : Bool) : Nat :=
  let guess := min latest (latest - 31680)
  let st₁ := probeLoop ts latest targetTime isGte 3 (guess, ts guess)
  let bin := binLoop ts targetTime isGte 2
    { left := ((st₁.1 - 100 : Nat) : Int)
      right := ((min latest (st₁.1 + 100) : Nat) : Int)
      block := st₁.1
      lastTime := st₁.2 }
  if isGte then walkGte ts targetTime bin.block bin.block
  else walkLt ts latest targetTime guess (latest - bin.block) bin.block

/-! ## Data validator (modules/dataValidator.js)

Amounts and odds are modelled as exact rationals (see the header note);
`Math.round(x)` for the non-negative values handled here is
`⌊x + 1/2⌋`.  The formatted time strings are modelled by the instant the
source feeds to `moment` (seconds since the epoch): the formatting to
`YYYY-MM-DD HH:mm:ss` in the configured timezone is injective on
instants, so nothing is lost by this. -/

/-- Model of JavaScript `String.prototype.toLowerCase()` on the ASCII
wallet strings this system handles: lower-case each character. -/
def jsToLower (s : String) : String := String.mk (s.data.map Char.toLower)

/-- Model of `DataValidator.formatTime(timestamp)`: a missing
(`undefined`) or zero timestamp is replaced by the CURRENT wall-clock
(`moment()`); otherwise the given unix timestamp is formatted. -/
def formatTime (timestamp : Option Int) (nowSec : Int) : Int :=
  match timestamp with
  | none => nowSec
  | some t => if t = 0 then nowSec else t

/-- Model of `DataValidator.parsePrice(price)` applied to
`x?.price || '0'`: missing prices parse to 0 and negatives clamp to 0. -/
def parsePrice (price : Option Rat) : Rat :=
  match price with
  | none => 0
  | some p => if p < 0 then 0 else p

/-- Model of `DataValidator.roundAmount(amount)` in exact arithmetic:
clamp negatives, then `Math.round(x·10⁸)/10⁸`. -/
def roundAmountQ (amount : Rat) : Rat :=
  if amount < 0 then 0 else (⌊amount * 100000000 + 1 / 2⌋ : Rat) / 100000000

/-- Model of `DataValidator.roundOdds(odds)` in exact arithmetic. -/
def roundOddsQ (odds : Rat) : Rat :=
  if odds < 0 then 0 else (⌊odds * 10000 + 1 / 2⌋ : Rat) / 10000

/-- Model of `DataValidator.calculateBetResult`. -/
def calculateBetResult (betDirection gameResult : String) : String :=
  if betDirection = gameResult then "WIN" else "LOSS"

/-- The canonical round record built by `validateRoundData`. -/
structure RoundData : Type where
  epoch : Int
  startTime : Int
  lockTime : Int
  closeTime : Int
  lockPrice : Rat
  closePrice : Rat
  result : String
  totalAmount : Rat
  upAmount : Rat
  downAmount : Rat
  upOdds : Rat
  downOdds : Rat
deriving DecidableEq, Repr

/-- Result of `validateRoundData`. -/
structure RoundValidation : Type where
  isValid : Bool
  errors : List String
  data : Option RoundData
  roundResult : Option String
deriving DecidableEq, Repr

/-- Model of `DataValidator.validateRoundData(eventsData)`: aggregates
the target epoch's stakes, computes odds from the 0.97 pool, and derives
the outcome — `UP` iff `closePrice > lockPrice` WHEN both the first
LockRound and the first EndRound event exist with truthy (non-zero)
prices, and the default `UP` otherwise.  No warning is recorded on the
default path. -/
def validateRoundData (evs : EpochEvents) (now : Int) : RoundValidation :=
  match evs.startRoundEvents with
  | [] => ⟨false, ["missing StartRound event"], none, none⟩
  | startRound :: _ =>
      let lockRound := evs.lockRoundEvents.head?
      let endRound := evs.endRoundEvents.head?
      let epoch := startRound.epoch
      let epochBetBull := evs.betBullEvents.filter (fun e => e.epoch = epoch)
      let epochBetBear := evs.betBearEvents.filter (fun e => e.epoch = epoch)
      let upAmount := (epochBetBull.map (·.amount)).sum
      let downAmount := (epochBetBear.map (·.amount)).sum
      let totalAmount := upAmount + downAmount
      let poolAfterFee := totalAmount * (97 / 100)
      let upOdds := if 0 < upAmount then poolAfterFee / upAmount else 0
      let downOdds := if 0 < downAmount then poolAfterFee / downAmount else 0
      let result :=
        match lockRound, endRound with
        | some lr, some er =>
            if lr.price ≠ 0 ∧ er.price ≠ 0 then
              if lr.price < er.price then "UP" else "DOWN"
            else "UP"
        | _, _ => "UP"
      let roundData : RoundData :=
        { epoch := epoch
          startTime := formatTime (some startRound.timestamp) now
          lockTime := formatTime (lockRound.map (·.timestamp)) now
          closeTime := formatTime (endRound.map (·.timestamp)) now
          lockPrice := parsePrice (lockRound.map (·.price))
          closePrice := parsePrice (endRound.map (·.price))
          result := result
          totalAmount := roundAmountQ totalAmount
          upAmount := roundAmountQ upAmount
          downAmount := roundAmountQ downAmount
          upOdds := roundOddsQ upOdds
          downOdds := roundOddsQ downOdds }
      ⟨true, [], some roundData, some result⟩

/-- A `hisBet` record built by `validateHisBetData`. -/
structure BetRecord : Type where
  epoch : Int
  betTime : Int
  walletAddress : String
  betDirection : String
  betAmount : Rat
  result : String
  blockNumber : Nat
deriving DecidableEq, Repr

/-- Result of `validateHisBetData`. -/
structure BetValidation : Type where
  isValid : Bool
  errors : List String
  data : List BetRecord
deriving DecidableEq, Repr

/-- Model of `DataValidator.validateHisBetData(eventsData, roundResult)`:
invalid events record an error and are skipped; a valid event becomes a
record whose direction is `UP` iff some BetBull event matches on
`(sender, epoch, blockNumber, transactionHash)`. -/
def validateHisBetData (evs : EpochEvents) (roundResult : String) (now : Int) :
    BetValidation :=
  let allBetEvents := evs.betBullEvents ++ evs.betBearEvents
  if allBetEvents.isEmpty then ⟨false, ["no bet event data"], []⟩
  else
    allBetEvents.foldl (fun acc event =>
      if event.sender = "" then ⟨false, acc.errors ++ ["bet missing sender"], acc.data⟩
      else if event.epoch = 0 then ⟨false, acc.errors ++ ["bet missing epoch"], acc.data⟩
      else if event.amount ≤ 0 then ⟨false, acc.errors ++ ["bet amount invalid"], acc.data⟩
      else
        let isBullEvent := evs.betBullEvents.any (fun b =>
          b.sender = event.sender ∧ b.epoch = event.epoch ∧
          b.blockNumber = event.blockNumber ∧ b.transactionHash = event.transactionHash)
        let direction := if isBullEvent then "UP" else "DOWN"
        ⟨acc.isValid, acc.errors,
          acc.data ++ [{ epoch := event.epoch
                         betTime := formatTime (some event.timestamp) now
                         walletAddress := jsToLower event.sender
                         betDirection := direction
                         betAmount := roundAmountQ event.amount
                         result := calculateBetResult direction roundResult
                         blockNumber := event.blockNumber }]⟩)
      ⟨true, [], []⟩

/-- A `claim` record built by `validateClaimData`: `epoch` carries the
`currentEpoch` ARGUMENT of the validator (which may be null), `betEpoch`
the epoch embedded in the claim event. -/
structure ClaimRecord : Type where
  epoch : Option Int
  walletAddress : String
  betEpoch : Int
  claimAmount : Rat
deriving DecidableEq, Repr

/-- Result of `validateClaimData`. -/
structure ClaimValidation : Type where
  isValid : Bool
  errors : List String
  data : List ClaimRecord
deriving DecidableEq, Repr

/-- Loop body of `validateClaimData`: reject events with a falsy sender,
falsy epoch or non-positive amount (pushing an error), otherwise append
the record `\x7b epoch: currentEpoch, walletAddress, betEpoch: event.epoch,
claimAmount \x7d`. -/
def claimStep (currentEpoch : Option Int) (acc : ClaimValidation)
    (event : ParsedEvent) : ClaimValidation :=
  if event.sender = "" then ⟨false, acc.errors ++ ["claim missing sender"], acc.data⟩
  else if event.epoch = 0 then ⟨false, acc.errors ++ ["claim missing epoch"], acc.data⟩
  else if event.amount ≤ 0 then ⟨false, acc.errors ++ ["claim amount invalid"], acc.data⟩
  else
    ⟨acc.isValid, acc.errors,
      acc.data ++ [{ epoch := currentEpoch
                     walletAddress := jsToLower event.sender
                     betEpoch := event.epoch
                     claimAmount := roundAmountQ event.amount }]⟩

/-- Model of `DataValidator.validateClaimData(eventsData, currentEpoch)`. -/
def validateClaimData (claimEvents : List ParsedEvent) (currentEpoch : Option Int) :
    ClaimValidation :=
  if claimEvents.isEmpty then ⟨true, [], []⟩
  else claimEvents.foldl (claimStep currentEpoch) ⟨true, [], []⟩

/-- Model of `DataValidator.validateEventsIntegrity`: `StartRound` must
exist with a truthy epoch; each bet and claim event must carry a truthy
epoch, a truthy sender and a positive amount. -/
def validateEventsIntegrity (evs : EpochEvents) : Bool × List String :=
  match evs.startRoundEvents with
  | [] => (false, ["missing StartRound event"])
  | startRound :: _ =>
      if startRound.epoch = 0 then (false, ["StartRound missing epoch"])
      else
        let allBetEvents := evs.betBullEvents ++ evs.betBearEvents
        let betErrors := allBetEvents.flatMap (fun bet =>
          (if bet.epoch = 0 ∨ bet.sender = "" then ["bet event missing required info"] else []) ++
          (if bet.amount ≤ 0 then ["bet amount invalid"] else []))
        let claimErrors := evs.claimEvents.flatMap (fun c =>
          (if c.epoch = 0 ∨ c.sender = "" then ["claim event missing required info"] else []) ++
          (if c.amount ≤ 0 then ["claim amount invalid"] else []))
        (betErrors.isEmpty ∧ claimErrors.isEmpty, betErrors ++ claimErrors)

/-- JavaScript `Math.round(x · 10000) / 10000`, used by the 4-decimal
consistency comparison. -/
def jsRound4 (x : Rat) : Rat := (⌊x * 10000 + 1 / 2⌋ : Rat) / 10000

/-- Model of `DataValidator.validateDataConsistency`, returned as the
list of errors it pushes.  A missing `roundData` makes the source throw
inside its own try/catch, which is caught and recorded as one error. -/
def consistencyErrors (roundData : Option RoundData) (hisBetData : List BetRecord) :
    List String :=
  match roundData with
  | none => ["consistency validation error"]
  | some rd =>
      let totalBets := hisBetData.length
      let upBets := (hisBetData.filter (fun b => b.betDirection = "UP")).length
      let downBets := (hisBetData.filter (fun b => b.betDirection = "DOWN")).length
      let totalBetAmount := (hisBetData.map (·.betAmount)).sum
      (if upBets + downBets ≠ totalBets then ["bet stats inconsistent"] else []) ++
      (if jsRound4 totalBetAmount ≠ jsRound4 rd.totalAmount then
        ["total bet amount mismatch"] else []) ++
      (if totalBets = 0 then ["no bet data for epoch"] else []) ++
      (if rd.upOdds ≤ 0 ∧ 0 < rd.upAmount then ["up odds zero with stake"] else []) ++
      (if rd.downOdds ≤ 0 ∧ 0 < rd.downAmount then ["down odds zero with stake"] else [])

/-- The overall result object of `validateEpochData`. -/
structure ValidationResult : Type where
  isValid : Bool
  errors : List String
  warnings : List String
  roundData : Option RoundData
  hisBetData : List BetRecord
  claimData : List ClaimRecord
  roundResult : String
  currentEpoch : Option Int
deriving DecidableEq, Repr

/-- Model of `DataValidator.validateEpochData(eventsData, currentEpoch)`:
infer `currentEpoch` from the first StartRound event when the argument
is null, run the integrity gate (early return on failure), then the
round / hisBet / claim validations and the consistency checks.  The
`warnings` list is initialised empty and — like in the source — never
written to. -/
def validateEpochData (evs : EpochEvents) (currentEpoch₀ : Option Int) (now : Int) :
    ValidationResult :=
  let currentEpoch :=
    match currentEpoch₀, evs.startRoundEvents with
    | none, s :: _ => some s.epoch
    | ce, _ => ce
  let integrity := validateEventsIntegrity evs
  if ¬ integrity.1 then
    { isValid := false
      errors := integrity.2
      warnings := []
      roundData := none
      hisBetData := []
      claimData := []
      roundResult := "UP"
      currentEpoch := currentEpoch }
  else
    let roundValidation := validateRoundData evs now
    let roundResult := roundValidation.roundResult.getD "UP"
    let hisBetValidation := validateHisBetData evs roundResult now
    let claimValidation := validateClaimData evs.claimEvents currentEpoch
    let cErrors := consistencyErrors roundValidation.data hisBetValidation.data
    { isValid := roundValidation.isValid ∧ hisBetValidation.isValid ∧
        claimValidation.isValid ∧ cErrors.isEmpty
      errors := roundValidation.errors ++ hisBetValidation.errors ++
        claimValidation.errors ++ cErrors
      warnings := []
      roundData := roundValidation.data
      hisBetData := hisBetValidation.data
      claimData := claimValidation.data
      roundResult := roundResult
      currentEpoch := currentEpoch }

/-- Model of the validation call of `HisBetScraper.handleEpochProcessing`:
the pipeline's target epoch is NOT forwarded — the source calls
`validateEpochData(eventsData)` with the `currentEpoch` parameter left
at its `null` default. -/
def pipelineValidate (_targetEpoch : Int) (evs : EpochEvents) (now : Int) :
    ValidationResult :=
  validateEpochData evs none now

/-! ## Exact model of the JavaScript number pipeline for amounts

`parseEvents` converts a raw 18-digit wei integer with
`Number(ethers.formatEther(wei))` and `DataValidator.roundAmount`
computes `Math.round(x · 10⁸) / 10⁸`, all in IEEE-754 binary64.
The functions below model binary64 values as the exact rationals they
denote and each arithmetic step as round-to-nearest-even at 53
significand bits (normal range only — all quantities here are normal).
`ethers.formatEther` itself produces the full exact decimal string, so
`Number` of it is the nearest double of `wei / 10¹⁸`. -/

/-- Bit length with explicit fuel (exact for `n < 2 ^ fuel`). -/
def bitlenAux : Nat → Nat → Nat
  | 0, _ => 0
  | fuel + 1, n => if n = 0 then 0 else bitlenAux fuel (n / 2) + 1

/-- Bit length of a natural number below `2 ^ 128`. -/
def bitlen (n : Nat) : Nat := bitlenAux 128 n

/-- Floor of the base-2 logarithm of a positive rational. -/
def floorLog2 (q : Rat) : Int :=
  let a := q.num.toNat
  let b := q.den
  let k₀ : Int := (bitlen a : Int) - (bitlen b : Int)
  if 0 ≤ k₀ then
    if b * 2 ^ k₀.toNat ≤ a then k₀ else k₀ - 1
  else
    if b ≤ a * 2 ^ (-k₀).toNat then k₀ else k₀ - 1

/-- The rational `2 ^ k` for a signed exponent. -/
def pow2 (k : Int) : Rat :=
  if 0 ≤ k then ((2 ^ k.toNat : Nat) : Rat) else 1 / ((2 ^ (-k).toNat : Nat) : Rat)

/-- Round to the nearest integer, ties to even. -/
def roundHalfEven (x : Rat) : Int :=
  let n := ⌊x⌋
  let fr := x - (n : Rat)
  if fr < 1 / 2 then n
  else if 1 / 2 < fr then n + 1
  else if n % 2 = 0 then n else n + 1

/-- The binary64 value nearest to a rational (round to nearest, ties to
even; normal range, no overflow handling). -/
def toDouble (q : Rat) : Rat :=
  if q = 0 then 0
  else
    let s : Rat := if q < 0 then -1 else 1
    let a := |q|
    let e := floorLog2 a
    let ulp := pow2 (e - 52)
    let m := roundHalfEven (a / ulp)
    s * (m : Rat) * ulp

/-- JavaScript double multiplication. -/
def jsMul (x y : Rat) : Rat := toDouble (x * y)

/-- JavaScript double division. -/
def jsDiv (x y : Rat) : Rat := toDouble (x / y)

/-- JavaScript `Math.round`: nearest integer, ties toward plus
infinity, computed exactly on the double argument. -/
def jsMathRound (x : Rat) : Int := ⌊x + 1 / 2⌋

/-- Model of the amount produced by `parseEvents`:
`Number(ethers.formatEther(amountWei))`, the nearest double of the
exact 18-digit value. -/
def parseAmountJs (wei : Nat) : Rat := toDouble ((wei : Rat) / 10 ^ 18)

/-- Model of `DataValidator.roundAmount` on a double argument, with
every arithmetic step performed in binary64. -/
def roundAmountJs (amount : Rat) : Rat :=
  if amount < 0 then 0
  else jsDiv ((jsMathRound (jsMul amount 100000000) : Int) : Rat) 100000000

/-- The amount that ends up persisted for a raw wei value: harvest
conversion followed by the validator rounding, as the source computes
it. -/
def storedAmountJs (wei : Nat) : Rat := roundAmountJs (parseAmountJs wei)

/-- The mathematically exact 8-fractional-digit truncation of an
18-digit raw value. -/
def truncate8 (wei : Nat) : Rat := ((wei / 10 ^ 10 : Nat) : Rat) / 10 ^ 8

/-- The mathematically exact 8-fractional-digit half-up rounding of an
18-digit raw value. -/
def round8 (wei : Nat) : Rat := (((wei + 5 * 10 ^ 9) / 10 ^ 10 : Nat) : Rat) / 10 ^ 8

/-! ## Concrete sample data used by the evaluation theorems -/

/-- A parsed StartRound event for epoch 426237 observed at block 100. -/
def sampleStart : ParsedEvent :=
  { eventType := EvName.startRound
    blockNumber := 100
    blockHash := "0xbh"
    transactionHash := "0xt0"
    transactionIndex := 0
    logIndex := 0
    address := "0xc"
    timestamp := 1700000000
    sender := ""
    epoch := 426237
    amount := 0
    price := 0
    position := none }

/-- A parsed BetBull event on epoch 426237 staking 1 BNB. -/
def sampleBull : ParsedEvent :=
  { eventType := EvName.betBull
    blockNumber := 101
    blockHash := "0xbh"
    transactionHash := "0xt1"
    transactionIndex := 0
    logIndex := 1
    address := "0xc"
    timestamp := 1700000100
    sender := "0xAA"
    epoch := 426237
    amount := 1
    price := 0
    position := some "Bull" }

/-- A parsed Claim event whose embedded (winning) epoch is 426236. -/
def sampleClaim : ParsedEvent :=
  { eventType := EvName.claim
    blockNumber := 102
    blockHash := "0xbh"
    transactionHash := "0xt2"
    transactionIndex := 0
    logIndex := 2
    address := "0xc"
    timestamp := 1700000200
    sender := "0xBB"
    epoch := 426236
    amount := 1
    price := 0
    position := none }

/-- Event set for an epoch whose block window contained a StartRound for
426237, one up-stake and one claim settling epoch 426236; the LockRound
and EndRound streams are empty, so both prices are missing. -/
def claim6Events : EpochEvents :=
  { startRoundEvents := [sampleStart]
    lockRoundEvents := []
    endRoundEvents := []
    betBullEvents := [sampleBull]
    betBearEvents := []
    claimEvents := [sampleClaim] }

/-- The same event set without the claim, used for the outcome/warning
evaluation. -/
def claim7Events : EpochEvents :=
  { claim6Events with claimEvents := [] }

/-- A raw StartRound log record at block 5. -/
def sampleRawStart : RawEvent :=
  { name := EvName.startRound
    blockNumber := 5
    blockHash := "0xbh"
    transactionHash := "0xt9"
    transactionIndex := 0
    logIndex := 0
    address := "0xc"
    sender := ""
    epoch := 426236
    amountWei := 0
    priceWei := 0 }

instance {α β : Type} [DecidableEq α] [DecidableEq β] : DecidableEq (Except α β) :=
  fun a b =>
    match a, b with
    | Except.ok x, Except.ok y =>
        if h : x = y then isTrue (by rw [h]) else isFalse (by simp [h])
    | Except.ok _, Except.error _ => isFalse (by simp)
    | Except.error _, Except.ok _ => isFalse (by simp)
    | Except.error x, Except.error y =>
        if h : x = y then isTrue (by rw [h]) else isFalse (by simp [h])

section ClaimTheorems

set_option maxRecDepth 8000

attribute [local semireducible] Rat.add Rat.mul Rat.inv Rat.sub

/-- C1: the claim states that a skipped pipeline invocation (acquire
returned false, or the completion marker already existed) does not
remove the lock key held by another invocation.  The code violates this:
`processEpoch`'s `finally` block calls the unconditional-DEL
`releaseLock` on every exit path.  Evaluated here: invocation A holds
the lock for epoch 700000; invocation B is skipped on either path, yet
afterwards the key is gone and a third invocation can acquire it while A
is still processing. -/
theorem claim1_skip_releases_foreign_lock :
    (processEpoch false true 700000 ⟨[(700000, "processing")]⟩).1
        = ProcessOutcome.skippedLocked ∧
    ((processEpoch false true 700000 ⟨[(700000, "processing")]⟩).2).get 700000 = none ∧
    (acquireLock (processEpoch false true 700000 ⟨[(700000, "processing")]⟩).2 700000).1
        = true ∧
    (processEpoch true true 700000 ⟨[(700000, "processing")]⟩).1
        = ProcessOutcome.skippedDone ∧
    ((processEpoch true true 700000 ⟨[(700000, "processing")]⟩).2).get 700000 = none := by
  decide

/-- C2: the commit step of `handleEpochProcessing` runs the realBet
delete, the round insert, the bet and claim batch inserts, the optional
multiClaim batch insert and the finEpoch marker insert inside one
`executeTransaction`, whose executor commits when the callback returns
cleanly, restores the snapshot (all tables unchanged) when the callback
throws, and releases the connection on both paths. -/
theorem claim2_commit_transactional :
    (∀ (db : DB) (epoch : Int) (roundData : Row) (bets claims multi : List Row),
      (executeTransaction (epochCommitCb epoch roundData bets claims multi) db).released
          = true ∧
      (executeTransaction (epochCommitCb epoch roundData bets claims multi) db).outcome
          = Except.ok () ∧
      (executeTransaction (epochCommitCb epoch roundData bets claims multi) db).final
          = { round := db.round ++ [roundData]
              hisBet := db.hisBet ++ bets
              claim := db.claim ++ claims
              multiClaim := db.multiClaim ++ (if multi.isEmpty then [] else multi)
              realBet := db.realBet.filter (fun r => rowEpoch r ≠ some (Val.i epoch))
              finEpoch := db.finEpoch ++ [[("epoch", Val.i epoch)]]
              errEpoch := db.errEpoch }) ∧
    (∀ (db : DB) (cb : DB → Except String DB) (msg : String),
      cb db = Except.error msg →
      (executeTransaction cb db).final = db ∧
      (executeTransaction cb db).outcome = Except.error msg ∧
      (executeTransaction cb db).released = true) := by
  constructor
  · intro db epoch roundData bets claims multi
    by_cases hm : multi.isEmpty <;>
      simp [executeTransaction, epochCommitCb, deleteRealBet, hm]
  · intro db cb msg h
    simp [executeTransaction, h]

/-- C2 witness: the rollback half of the theorem applied to a callback
that throws on the empty store. -/
theorem claim2_commit_transactional_witness :
    (executeTransaction (fun _ => Except.error "boom") DB.empty).final = DB.empty ∧
    (executeTransaction (fun _ => Except.error "boom") DB.empty).outcome
        = Except.error "boom" ∧
    (executeTransaction (fun _ => Except.error "boom") DB.empty).released = true :=
  claim2_commit_transactional.2 DB.empty (fun _ => Except.error "boom") "boom" rfl

/-- C3: the claim states every typed operation binds its values as
positional `$n` placeholders.  The code emits the bare parameter index
with no dollar sign in `batchInsert`, `buildWhereClause` and
`buildSetClause` (only `insert` writes `$n`), even though the value
array is still passed to `client.query`.  Evaluated on the pipeline's
own statements: the one-row claim batch-insert renders `VALUES
(1, 2, 3, 4)`, the realBet delete renders `"epoch" = 1`, an update
renders `"errorMessage" = 1 WHERE "epoch" = 2`, a select renders
`"epoch" = 1`, while the finEpoch single-row insert correctly renders
`($1)`. -/
theorem claim3_placeholders_missing_dollar :
    trxBatchInsert
        [[("epoch", Val.i 426238), ("walletAddress", Val.s "0xbb"),
          ("betEpoch", Val.i 426236), ("claimAmount", Val.q 1)]] "claim"
      = Except.ok (some
          { text := "INSERT INTO claim (\"epoch\", \"walletAddress\", \"betEpoch\", \"claimAmount\") VALUES (1, 2, 3, 4)"
            params := [Val.i 426238, Val.s "0xbb", Val.i 426236, Val.q 1] }) ∧
    trxDelete "realBet" [("epoch", Val.i 426238)]
      = Except.ok
          { text := "DELETE FROM realBet WHERE \"epoch\" = 1"
            params := [Val.i 426238] } ∧
    trxUpdate "errEpoch" [("errorMessage", Val.s "boom")] [("epoch", Val.i 426238)]
      = Except.ok
          { text := "UPDATE errEpoch SET \"errorMessage\" = 1 WHERE \"epoch\" = 2"
            params := [Val.s "boom", Val.i 426238] } ∧
    trxSelect "finEpoch" [("epoch", Val.i 426238)] ["*"]
      = Except.ok
          { text := "SELECT * FROM finEpoch WHERE \"epoch\" = 1"
            params := [Val.i 426238] } ∧
    trxInsert [("epoch", Val.i 426238)] "finEpoch"
      = Except.ok
          { text := "INSERT INTO finEpoch (\"epoch\") VALUES ($1)"
            params := [Val.i 426238] } := by
  decide

/-- C4 counterexample: the claim states the fetch returns all six event
streams and in particular a non-empty startRound list whenever a
StartRound event lies in the range.  Evaluated at a chain holding one
StartRound event at block 5 with the range [0, 10]: the event matches
the StartRound filter, yet `fetchEventsInBatch` returns an empty
startRound list (it only queries BetBull, BetBear and Claim). -/
theorem claim4_counterexample :
    queryFilter [sampleRawStart] EvName.startRound 0 10 = [sampleRawStart] ∧
    (fetchEventsInBatch [sampleRawStart] (fun _ => 1700000000) 0 10).startRoundEvents
      = [] := by
  decide

/-- Helper for C4: with enough fuel, the slice loop reaches every
matching event of the range — the contiguous slices cover
`[cursor, toBlock]`. -/
theorem sliceLoop_complete (chain : List RawEvent) (n : EvName)
    (toBlock sliceSize : Nat) (hs : 1 ≤ sliceSize) :
    ∀ (fuel cursor : Nat) (ev : RawEvent), ev ∈ chain → ev.name = n →
      cursor ≤ ev.blockNumber → ev.blockNumber ≤ toBlock →
      toBlock + 1 ≤ fuel + cursor →
      ev ∈ sliceLoop chain n toBlock sliceSize fuel cursor := by
  intro fuel
  induction fuel with
  | zero => intro cursor ev _ _ h1 h2 hf; omega
  | succ f ih =>
      intro cursor ev hm hn h1 h2 hf
      have hc : cursor ≤ toBlock := le_trans h1 h2
      simp only [sliceLoop, if_pos hc]
      by_cases hend : ev.blockNumber ≤ min toBlock (cursor + sliceSize - 1)
      · apply List.mem_append_left
        simp only [queryFilter, List.mem_filter, decide_eq_true_eq]
        exact ⟨hm, by simp [hn], by simpa using h1, by simpa using hend⟩
      · apply List.mem_append_right
        apply ih (min toBlock (cursor + sliceSize - 1) + 1) ev hm hn (by omega) h2 (by omega)

/-- Helper for C4: every matching raw event of the range appears, as its
parse, in the stream `fetchEventsByFilter` returns for its signature. -/
theorem fetchEventsByFilter_complete (chain : List RawEvent) (tsOf : Nat → Int)
    (n : EvName) (fromBlock toBlock : Nat) (ev : RawEvent)
    (hm : ev ∈ chain) (hn : ev.name = n)
    (h1 : fromBlock ≤ ev.blockNumber) (h2 : ev.blockNumber ≤ toBlock) :
    parseOne tsOf n ev ∈ fetchEventsByFilter chain tsOf n fromBlock toBlock := by
  unfold fetchEventsByFilter parseEvents
  exact List.mem_map_of_mem _
    (sliceLoop_complete chain n toBlock 20000 (by omega) (toBlock + 1) fromBlock ev
      hm hn h1 h2 (by omega))

/-- C4 amended: the harvester's batch fetch populates only the BetBull,
BetBear and Claim streams — each of those is complete for the range (one
parsed record per matching raw log) — while the startRound, lockRound
and endRound lists are empty literals for every input, so a StartRound
event in the range never yields a non-empty startRound list. -/
theorem claim4_amended :
    (∀ (chain : List RawEvent) (tsOf : Nat → Int) (fromBlock toBlock : Nat),
      (fetchEventsInBatch chain tsOf fromBlock toBlock).startRoundEvents = [] ∧
      (fetchEventsInBatch chain tsOf fromBlock toBlock).lockRoundEvents = [] ∧
      (fetchEventsInBatch chain tsOf fromBlock toBlock).endRoundEvents = []) ∧
    (∀ (chain : List RawEvent) (tsOf : Nat → Int) (fromBlock toBlock : Nat)
        (ev : RawEvent), ev ∈ chain →
      fromBlock ≤ ev.blockNumber → ev.blockNumber ≤ toBlock →
      (ev.name = EvName.betBull → parseOne tsOf EvName.betBull ev ∈
        (fetchEventsInBatch chain tsOf fromBlock toBlock).betBullEvents) ∧
      (ev.name = EvName.betBear → parseOne tsOf EvName.betBear ev ∈
        (fetchEventsInBatch chain tsOf fromBlock toBlock).betBearEvents) ∧
      (ev.name = EvName.claim → parseOne tsOf EvName.claim ev ∈
        (fetchEventsInBatch chain tsOf fromBlock toBlock).claimEvents)) := by
  constructor
  · intro chain tsOf fromBlock toBlock
    exact ⟨rfl, rfl, rfl⟩
  · intro chain tsOf fromBlock toBlock ev hm h1 h2
    exact
      ⟨fun hn => fetchEventsByFilter_complete chain tsOf _ fromBlock toBlock ev hm hn h1 h2,
       fun hn => fetchEventsByFilter_complete chain tsOf _ fromBlock toBlock ev hm hn h1 h2,
       fun hn => fetchEventsByFilter_complete chain tsOf _ fromBlock toBlock ev hm hn h1 h2⟩

/-- A raw BetBull log record at block 7, used to witness C4. -/
def sampleRawBull : RawEvent :=
  { name := EvName.betBull
    blockNumber := 7
    blockHash := "0xbh"
    transactionHash := "0xt8"
    transactionIndex := 0
    logIndex := 0
    address := "0xc"
    sender := "0xAA"
    epoch := 426236
    amountWei := 10 ^ 18
    priceWei := 0 }

/-- C4 amended witness: the completeness half applied to a concrete
one-event chain. -/
theorem claim4_amended_witness :
    parseOne (fun _ => (1700000000 : Int)) EvName.betBull sampleRawBull ∈
      (fetchEventsInBatch [sampleRawBull] (fun _ => (1700000000 : Int)) 0 10).betBullEvents :=
  (claim4_amended.2 [sampleRawBull] (fun _ => (1700000000 : Int)) 0 10 sampleRawBull
    (List.mem_singleton.mpr rfl) (by decide) (by decide)).1 rfl

/-- C5 counterexample: the claim states the locator in first-geq mode
returns the height h with ts(h) ≥ T and ts(h−1) < T.  On the monotone
chain ts(h) = h with latest = 1000 and target T = 900 (within the time
span), that height is 900; the locator returns 300, whose timestamp 300
is below the target, because its probe/binary/walk budget is exhausted
far from the boundary. -/
theorem claim5_counterexample :
    findBlockForTime (fun b => b) 1000 900 true = 300 ∧
    ¬ (900 ≤ (fun (b : Nat) => b) (findBlockForTime (fun b => b) 1000 900 true)) := by
  decide

/-- Helper for C5: the probe phase never leaves `[0, latest]`. -/
theorem probeLoop_le (ts : Nat → Nat) (latest targetTime : Nat) (isGte : Bool) :
    ∀ (fuel : Nat) (st : Nat × Nat), st.1 ≤ latest →
      (probeLoop ts latest targetTime isGte fuel st).1 ≤ latest := by
  intro fuel
  induction fuel with
  | zero => intro st h; exact h
  | succ f ih =>
      intro st h
      obtain ⟨block, lastTime⟩ := st
      simp only [probeLoop]
      split_ifs <;>
        first
          | exact h
          | (apply ih; simp only; omega)

/-- Helper for C5: the binary phase keeps the candidate block within
`latest` as long as `right` starts within `latest`. -/
theorem binLoop_le (ts : Nat → Nat) (targetTime : Nat) (isGte : Bool) (latest : Nat) :
    ∀ (fuel : Nat) (st : BinState), st.block ≤ latest → st.right ≤ (latest : Int) →
      (binLoop ts targetTime isGte fuel st).block ≤ latest := by
  intro fuel
  induction fuel with
  | zero => intro st h _; exact h
  | succ f ih =>
      intro st h hr
      simp only [binLoop]
      split_ifs with hlr hg ht ht
      · apply ih
        · simp only
          have : (st.left + st.right) / 2 ≤ st.right := by omega
          omega
        · simp only
          omega
      · apply ih <;> simp only <;> omega
      · apply ih
        · simp only
          have : (st.left + st.right) / 2 ≤ st.right := by omega
          omega
        · simp only
          omega
      · apply ih <;> simp only <;> omega
      · exact h

/-- Helper for C5: the left boundary walk only decreases the block. -/
theorem walkGte_le (ts : Nat → Nat) (targetTime : Nat) :
    ∀ (fuel block : Nat), walkGte ts targetTime fuel block ≤ block := by
  intro fuel
  induction fuel with
  | zero => intro block; exact Nat.le_refl _
  | succ f ih =>
      intro block
      simp only [walkGte]
      split_ifs
      · omega
      · exact le_trans (ih (block - 1)) (by omega)
      · exact Nat.le_refl _
      · exact Nat.le_refl _

/-- Helper for C5: the right boundary walk never passes `latest`. -/
theorem walkLt_le (ts : Nat → Nat) (latest targetTime guess : Nat) :
    ∀ (fuel block : Nat), block ≤ latest →
      walkLt ts latest targetTime guess fuel block ≤ latest := by
  intro fuel
  induction fuel with
  | zero => intro block h; exact h
  | succ f ih =>
      intro block h
      simp only [walkLt]
      split_ifs with h1 h2 h3
      · omega
      · exact ih (block + 1) (by omega)
      · exact h
      · exact h

/-- C5 amended: `findBlockForTime` is a bounded-effort heuristic (three
100-block probes, two binary iterations, a bounded one-block walk); it
always returns a height within `[0, latest]`, but the boundary property
the claim states does not hold in general (see the counterexample,
where the target is farther from the seed than the probe budget
reaches). -/
theorem claim5_amended (ts : Nat → Nat) (latest targetTime : Nat) (isGte : Bool) :
    findBlockForTime ts latest targetTime isGte ≤ latest := by
  unfold findBlockForTime
  have hg : min latest (latest - 31680) ≤ latest := min_le_left _ _
  have h1 : (probeLoop ts latest targetTime isGte 3
      (min latest (latest - 31680), ts (min latest (latest - 31680)))).1 ≤ latest :=
    probeLoop_le ts latest targetTime isGte 3 _ hg
  have h2 := binLoop_le ts targetTime isGte latest 2
    { left := (((probeLoop ts latest targetTime isGte 3
          (min latest (latest - 31680), ts (min latest (latest - 31680)))).1 - 100 : Nat) : Int)
      right := ((min latest ((probeLoop ts latest targetTime isGte 3
          (min latest (latest - 31680), ts (min latest (latest - 31680)))).1 + 100) : Nat) : Int)
      block := (probeLoop ts latest targetTime isGte 3
          (min latest (latest - 31680), ts (min latest (latest - 31680)))).1
      lastTime := (probeLoop ts latest targetTime isGte 3
          (min latest (latest - 31680), ts (min latest (latest - 31680)))).2 }
    h1 (by simp)
  split_ifs
  · exact le_trans (walkGte_le ts targetTime _ _) h2
  · exact walkLt_le ts latest targetTime _ _ _ h2

/-- C6 counterexample: the claim states every claim record produced
while the pipeline processes epoch e carries `epoch = e`.  The pipeline
(`handleEpochProcessing`) calls `validateEpochData(eventsData)` WITHOUT
passing e, so the validator infers `currentEpoch` from the first
StartRound event.  Evaluated with pipeline target e = 426238 over a
window whose first StartRound is 426237: validation succeeds and the
produced record has `epoch = 426237 ≠ 426238` (and `betEpoch = 426236`
from the event). -/
theorem claim6_counterexample :
    (pipelineValidate 426238 claim6Events 1700009999).isValid = true ∧
    (pipelineValidate 426238 claim6Events 1700009999).claimData
      = [{ epoch := some 426237
           walletAddress := "0xbb"
           betEpoch := 426236
           claimAmount := 1 }] ∧
    some (426238 : Int) ≠ some (426237 : Int) := by
  decide

/-- Helper for C6: every record the claim-validation fold produces
either was already in the accumulator or originates from one of the
processed events, with `epoch` set to the `currentEpoch` argument and
`betEpoch` to that event's embedded epoch. -/
theorem claimStep_foldl_mem (currentEpoch : Option Int) :
    ∀ (events : List ParsedEvent) (acc : ClaimValidation) (r : ClaimRecord),
      r ∈ (events.foldl (claimStep currentEpoch) acc).data →
      r ∈ acc.data ∨ ∃ ev ∈ events, r.epoch = currentEpoch ∧ r.betEpoch = ev.epoch ∧
        r.walletAddress = jsToLower ev.sender ∧ r.claimAmount = roundAmountQ ev.amount := by
  intro events
  induction events with
  | nil => intro acc r h; exact Or.inl h
  | cons ev rest ih =>
      intro acc r h
      rcases ih (claimStep currentEpoch acc ev) r h with h₁ | ⟨ev₁, hm₁, hp₁⟩
      · unfold claimStep at h₁
        split_ifs at h₁
        · exact Or.inl h₁
        · exact Or.inl h₁
        · exact Or.inl h₁
        · rcases List.mem_append.mp h₁ with h₂ | h₂
          · exact Or.inl h₂
          · refine Or.inr ⟨ev, List.mem_cons_self ev rest, ?_⟩
            rcases List.mem_singleton.mp h₂ with rfl
            exact ⟨rfl, rfl, rfl, rfl⟩
      · exact Or.inr ⟨ev₁, List.mem_cons_of_mem ev hm₁, hp₁⟩

/-- C6 amended: `validateClaimData` gives every produced record the
`currentEpoch` ARGUMENT as its `epoch` and the event's embedded epoch
as `betEpoch` (the two may differ) — but the pipeline never passes its
target epoch, so `currentEpoch` is the epoch inferred from the first
StartRound event (null when that stream is empty), not necessarily the
processed epoch. -/
theorem claim6_amended (claimEvents : List ParsedEvent) (currentEpoch : Option Int)
    (r : ClaimRecord) (h : r ∈ (validateClaimData claimEvents currentEpoch).data) :
    r.epoch = currentEpoch ∧ ∃ ev ∈ claimEvents, r.betEpoch = ev.epoch ∧
      r.walletAddress = jsToLower ev.sender ∧ r.claimAmount = roundAmountQ ev.amount := by
  unfold validateClaimData at h
  split_ifs at h
  · simp at h
  · rcases claimStep_foldl_mem currentEpoch claimEvents ⟨true, [], []⟩ r h with h₁ | h₁
    · simp at h₁
    · rcases h₁ with ⟨ev, hm, he, hb, hw, ha⟩
      exact ⟨he, ev, hm, hb, hw, ha⟩

/-- C6 amended witness: the theorem applied to the record produced from
the sample claim event under `currentEpoch = 426238`. -/
theorem claim6_amended_witness :
    ({ epoch := some 426238, walletAddress := "0xbb", betEpoch := 426236,
        claimAmount := 1 } : ClaimRecord).epoch = some 426238 ∧
    ∃ ev ∈ [sampleClaim],
      ({ epoch := some 426238, walletAddress := "0xbb", betEpoch := 426236,
          claimAmount := 1 } : ClaimRecord).betEpoch = ev.epoch ∧
      ({ epoch := some 426238, walletAddress := "0xbb", betEpoch := 426236,
          claimAmount := 1 } : ClaimRecord).walletAddress = jsToLower ev.sender ∧
      ({ epoch := some 426238, walletAddress := "0xbb", betEpoch := 426236,
          claimAmount := 1 } : ClaimRecord).claimAmount = roundAmountQ ev.amount :=
  claim6_amended [sampleClaim] (some 426238)
    { epoch := some 426238, walletAddress := "0xbb", betEpoch := 426236, claimAmount := 1 }
    (by decide)

/-- C7 counterexample: the claim states that when the lock or close
price is missing the validator defaults the outcome to UP AND records a
warning in the validation result.  Evaluated on an epoch with no
LockRound/EndRound events (both prices missing): the outcome defaults
to UP, the epoch validates (so it would commit) — but the warnings list
is empty; no code path ever writes a warning. -/
theorem claim7_counterexample :
    (validateEpochData claim7Events none 1700009999).roundResult = "UP" ∧
    (validateEpochData claim7Events none 1700009999).isValid = true ∧
    (validateEpochData claim7Events none 1700009999).warnings = [] := by
  decide

/-- C7 amended: the validator derives the outcome `UP` iff
`closePrice > lockPrice` when both the first LockRound and first
EndRound events exist with non-zero prices, and defaults to `UP` when
either is missing — but it records NO warning anywhere (the validation
result's warnings list is empty for every input), and missing prices do
not fail the round validation, so the epoch still commits. -/
theorem claim7_amended :
    (∀ (evs : EpochEvents) (c : Option Int) (now : Int),
      (validateEpochData evs c now).warnings = []) ∧
    (∀ (evs : EpochEvents) (now : Int) (rd : RoundData),
      (validateRoundData evs now).data = some rd →
      ((evs.lockRoundEvents = [] ∨ evs.endRoundEvents = []) → rd.result = "UP") ∧
      (∀ lr er, evs.lockRoundEvents.head? = some lr →
        evs.endRoundEvents.head? = some er → lr.price ≠ 0 → er.price ≠ 0 →
        (rd.result = "UP" ↔ lr.price < er.price)) ∧
      (validateRoundData evs now).isValid = true) := by
  constructor
  · intro evs c now
    by_cases hI : (validateEventsIntegrity evs).1 <;>
      simp [validateEpochData, hI]
  · intro evs now rd h
    rcases hst : evs.startRoundEvents with _ | ⟨s, rest⟩
    · rw [validateRoundData, hst] at h
      simp at h
    · rw [validateRoundData, hst] at h
      simp only [Option.some.injEq] at h
      subst h
      refine ⟨?_, ?_, ?_⟩
      · rintro (hl | he)
        · simp [hl]
        · rcases hl' : evs.lockRoundEvents.head? with _ | lr <;> simp [he, hl']
      · intro lr er hl he hlp hep
        simp only [hl, he]
        rw [if_pos ⟨hlp, hep⟩]
        by_cases hcmp : lr.price < er.price
        · simp [hcmp]
        · simp [hcmp]
      · rw [validateRoundData, hst]

/-- C7 amended witness: the round-outcome half of the theorem applied
to the sample epoch with both price streams missing. -/
theorem claim7_amended_witness :
    ((claim7Events.lockRoundEvents = [] ∨ claim7Events.endRoundEvents = []) →
      ({ epoch := 426237, startTime := 1700000000, lockTime := 1700009999,
         closeTime := 1700009999, lockPrice := 0, closePrice := 0, result := "UP",
         totalAmount := 1, upAmount := 1, downAmount := 0, upOdds := 97 / 100,
         downOdds := 0 } : RoundData).result = "UP") ∧
    (∀ lr er, claim7Events.lockRoundEvents.head? = some lr →
      claim7Events.endRoundEvents.head? = some er → lr.price ≠ 0 → er.price ≠ 0 →
      (({ epoch := 426237, startTime := 1700000000, lockTime := 1700009999,
          closeTime := 1700009999, lockPrice := 0, closePrice := 0, result := "UP",
          totalAmount := 1, upAmount := 1, downAmount := 0, upOdds := 97 / 100,
          downOdds := 0 } : RoundData).result = "UP" ↔ lr.price < er.price)) ∧
    (validateRoundData claim7Events 1700009999).isValid = true :=
  claim7_amended.2 claim7Events 1700009999
    { epoch := 426237, startTime := 1700000000, lockTime := 1700009999,
      closeTime := 1700009999, lockPrice := 0, closePrice := 0, result := "UP",
      totalAmount := 1, upAmount := 1, downAmount := 0, upOdds := 97 / 100,
      downOdds := 0 }
    (by decide)

/-- C8 counterexample: the claim states the stored 8-digit amount is
computed exactly by integer arithmetic and equals the exact
truncation/rounding for all inputs.  The code computes
`Number(ethers.formatEther(wei))` and `Math.round(x·10⁸)/10⁸` in
binary64.  Evaluated at wei = 10¹⁷ (0.1 BNB): the exact truncation and
rounding are both 1/10, but the stored value is the binary64
approximation 3602879701896397/2⁵⁵ ≠ 1/10. -/
theorem claim8_counterexample :
    truncate8 (10 ^ 17) = 1 / 10 ∧
    round8 (10 ^ 17) = 1 / 10 ∧
    storedAmountJs (10 ^ 17) = 3602879701896397 / 36028797018963968 ∧
    storedAmountJs (10 ^ 17) ≠ truncate8 (10 ^ 17) ∧
    storedAmountJs (10 ^ 17) ≠ round8 (10 ^ 17) := by
  decide

/-- C8 amended: the conversion is performed in IEEE-754 binary64 — the
persisted amount is `roundAmount` applied to the nearest double of the
exact 18-digit value, so it equals the exact conversion only when that
value is exactly representable (whole-unit amounts are; 0.1 is not). -/
theorem claim8_amended :
    storedAmountJs (10 ^ 17) = roundAmountJs (toDouble (1 / 10)) ∧
    (∀ n : Nat, n < 16 → storedAmountJs (n * 10 ^ 18) = (n : Rat)) := by
  decide

/-- C8 amended witness: the amended statement applied at n = 3. -/
theorem claim8_amended_witness : storedAmountJs (3 * 10 ^ 18) = (3 : Rat) :=
  claim8_amended.2 3 (by decide)

/-- C9: the claim states a block timestamp cached less than 60 minutes
ago is served from the cache on the next batched lookup with no new
header request.  The code writes cache entries as
`\x7b timestamp, cachedAt \x7d` but the freshness test reads
`now - cached.timestamp`, comparing the wall clock in milliseconds
against the CHAIN timestamp in seconds, so every realistic entry is
classified as expired.  Evaluated: block 100 (chain ts 1700000000 s) is
fetched at t₀ = 1760000000000 ms and cached; a lookup one second later
re-issues the RPC, although `cachedAt` shows the entry is 1000 ms old —
far within the 60-minute expiry.  (The duplicate-coalescing half of the
claim does hold: `parseEvents` dedups block numbers before the lookup.) -/
theorem claim9_cache_never_hits :
    (getBlockTimestampsBatch (fun _ => some 1700000000) 1760000000000 [] [100]).rpcBlocks
      = [100] ∧
    tsCacheGet
        (getBlockTimestampsBatch (fun _ => some 1700000000) 1760000000000 [] [100]).cache
        100
      = some ⟨1700000000, 1760000000000⟩ ∧
    (getBlockTimestampsBatch (fun _ => some 1700000000) 1760000001000
        (getBlockTimestampsBatch (fun _ => some 1700000000) 1760000000000 [] [100]).cache
        [100]).rpcBlocks
      = [100] ∧
    ((1760000001000 : Int) - 1760000000000 < timestampCacheExpiry) ∧
    parseEventsBlockNumbers [sampleRawStart, sampleRawStart] = [5] := by
  decide

/-- Helper for C10: searching a key in an append skips a first part
that does not contain it. -/
theorem find?_key_append (b : Nat) :
    ∀ (l₁ l₂ : List (Nat × Int)),
      l₁.find? (fun kv => kv.1 = b) = none →
      (l₁ ++ l₂).find? (fun kv => kv.1 = b) = l₂.find? (fun kv => kv.1 = b) := by
  intro l₁
  induction l₁ with
  | nil => intro l₂ _; rfl
  | cons x t ih =>
      intro l₂ h
      rcases hx : (decide (x.1 = b)) with _ | _
      · rw [List.cons_append, List.find?_cons_of_neg _ (by simpa using hx)]
        rw [List.find?_cons_of_neg _ (by simpa using hx)] at h
        exact ih l₂ h
      · rw [List.find?_cons_of_pos _ (by simpa using hx)] at h
        cases h

/-- Helper for C10: the hit phase never produces an entry for a block
that is absent from the cache. -/
theorem hitFn_find?_none (cache : TsCache) (now : Int) (b : Nat)
    (hmiss : tsCacheGet cache b = none) :
    ∀ bs : List Nat,
      (bs.filterMap (tsHitFn cache now)).find? (fun kv => kv.1 = b) = none := by
  intro bs
  induction bs with
  | nil => rfl
  | cons x t ih =>
      rw [List.filterMap_cons]
      rcases hx : tsHitFn cache now x with _ | kv
      · exact ih
      · have hkey : kv.1 = x := by
          unfold tsHitFn at hx
          rcases hg : tsCacheGet cache x with _ | entry <;> rw [hg] at hx <;>
            dsimp only at hx
          · cases hx
          · split_ifs at hx
            · cases hx; rfl
        have hxb : ¬ (x = b) := by
          intro heq
          subst heq
          unfold tsHitFn at hx
          rw [hmiss] at hx
          cases hx
        rw [List.find?_cons_of_neg _ (by simp [hkey, hxb])]
        exact ih

/-- Helper for C10: looking up a member key in the fetch phase output
yields the fetch of that key. -/
theorem fetch_find?_mem (getBlock : Nat → Option Int) (now : Int) (b : Nat) :
    ∀ xs : List Nat, b ∈ xs →
      (xs.map (tsFetchFn getBlock now)).find? (fun kv => kv.1 = b)
        = some (tsFetchFn getBlock now b) := by
  intro xs
  induction xs with
  | nil => intro h; cases h
  | cons x t ih =>
      intro h
      by_cases hxb : x = b
      · subst hxb
        rw [List.map_cons, List.find?_cons_of_pos _ (by simp [tsFetchFn])]
      · rcases List.mem_cons.mp h with h' | h'
        · exact absurd h'.symm hxb
        · rw [List.map_cons, List.find?_cons_of_neg _ (by simp [tsFetchFn, hxb])]
          exact ih h'

/-- Helper for C10: cache write/read round trip for a single `set`. -/
theorem tsCacheGet_set (c : TsCache) (k : Nat) (e : TsCacheEntry) (b : Nat) :
    tsCacheGet (tsCacheSet c k e) b = if k = b then some e else tsCacheGet c b := by
  by_cases hkb : k = b
  · subst hkb
    simp [tsCacheGet, tsCacheSet, List.find?_cons_of_pos]
  · unfold tsCacheGet tsCacheSet
    rw [List.find?_cons_of_neg _ (by simpa using hkb)]
    rw [if_neg hkb]
    congr 1
    induction c with
    | nil => rfl
    | cons x t ih =>
        by_cases hxk : x.1 = k
        · rw [List.filter_cons_of_neg (by simpa using hxk)]
          rw [List.find?_cons_of_neg _ (by simp [hxk, hkb])]
          exact ih
        · rw [List.filter_cons_of_pos (by simpa using hxk)]
          by_cases hxb : x.1 = b
          · rw [List.find?_cons_of_pos _ (by simpa using hxb),
              List.find?_cons_of_pos _ (by simpa using hxb)]
          · rw [List.find?_cons_of_neg _ (by simpa using hxb),
              List.find?_cons_of_neg _ (by simpa using hxb)]
            exact ih

/-- Helper for C10: after folding the cache writes, a key whose every
written value is `v` (and which is written at least once or already
held `v`) maps to `⟨v, now⟩`. -/
theorem foldl_tsCacheSet_get (now : Int) (b : Nat) (v : Int) :
    ∀ (entries : List (Nat × Int)) (c : TsCache),
      (∀ e ∈ entries, e.1 = b → e.2 = v) →
      (b ∈ entries.map Prod.fst ∨ tsCacheGet c b = some ⟨v, now⟩) →
      tsCacheGet (entries.foldl (fun c bt => tsCacheSet c bt.1 ⟨bt.2, now⟩) c) b
        = some ⟨v, now⟩ := by
  intro entries
  induction entries with
  | nil =>
      intro c _ hin
      rcases hin with h | h
      · cases h
      · exact h
  | cons e t ih =>
      intro c hall hin
      rw [List.foldl_cons]
      by_cases heb : e.1 = b
      · apply ih
        · intro e' he' hb'; exact hall e' (List.mem_cons_of_mem _ he') hb'
        · right
          rw [tsCacheGet_set, if_pos heb, hall e (List.mem_cons_self e t) heb]
      · apply ih
        · intro e' he' hb'; exact hall e' (List.mem_cons_of_mem _ he') hb'
        · rcases hin with h | h
          · rw [List.map_cons] at h
            rcases List.mem_cons.mp h with h' | h'
            · exact absurd h'.symm heb
            · exact Or.inl h'
          · right; rw [tsCacheGet_set, if_neg heb]; exact h

/-- C10: when the header lookup for a block fails during timestamp
attachment, the harvester surfaces no error — the batch lookup returns
the wall clock in seconds for that block and caches that substitute —
and the validator's `formatTime` likewise replaces a missing or zero
event timestamp with the current time, so persisted times can silently
be the scrape time rather than the on-chain time. -/
theorem claim10_wallclock_substitution (getBlock : Nat → Option Int) (now : Int)
    (cache : TsCache) (b : Nat) (blockNumbers : List Nat)
    (hfail : getBlock b = none) (hmiss : tsCacheGet cache b = none)
    (hmem : b ∈ blockNumbers) (nowSec : Int) :
    tsBatchLookup (getBlockTimestampsBatch getBlock now cache blockNumbers) b
        = some (now / 1000) ∧
    tsCacheGet (getBlockTimestampsBatch getBlock now cache blockNumbers).cache b
        = some ⟨now / 1000, now⟩ ∧
    formatTime none nowSec = nowSec ∧
    formatTime (some 0) nowSec = nowSec := by
  have hb : b ∈ blockNumbers.filter (tsIsUncached cache now) :=
    List.mem_filter.mpr ⟨hmem, by simp [tsIsUncached, hmiss]⟩
  refine ⟨?_, ?_, rfl, rfl⟩
  · unfold tsBatchLookup getBlockTimestampsBatch
    dsimp only
    rw [find?_key_append b _ _ (hitFn_find?_none cache now b hmiss blockNumbers)]
    rw [fetch_find?_mem getBlock now b _ hb]
    simp [tsFetchFn, hfail]
  · unfold getBlockTimestampsBatch
    dsimp only
    apply foldl_tsCacheSet_get
    · intro e he heb
      rcases List.mem_map.mp he with ⟨x, hx, rfl⟩
      unfold tsFetchFn at heb ⊢
      dsimp only at heb ⊢
      subst heb
      rw [hfail]
    · left
      have : (fun p : Nat × Int => p.1) ∘ tsFetchFn getBlock now = id := by
        funext x; rfl
      rw [List.map_map, this, List.map_id]
      exact hb

/-- C10 witness: the theorem applied to a one-block batch whose header
lookup fails against an empty cache. -/
theorem claim10_wallclock_substitution_witness :
    tsBatchLookup
        (getBlockTimestampsBatch (fun _ => none) 1760000000000 [] [100]) 100
      = some (1760000000000 / 1000) ∧
    tsCacheGet
        (getBlockTimestampsBatch (fun _ => none) 1760000000000 [] [100]).cache 100
      = some ⟨1760000000000 / 1000, 1760000000000⟩ ∧
    formatTime none 1700000000 = 1700000000 ∧
    formatTime (some 0) 1700000000 = 1700000000 :=
  claim10_wallclock_substitution (fun _ => none) 1760000000000 [] 100 [100]
    rfl rfl (List.mem_singleton.mpr rfl) 1700000000

end ClaimTheorems

end HisBet
